import Mathlib

/-
Verification of the CT_klipper host-side control logic
(klippy/extras/gcode_move.py, virtual_sdcard.py, pause_resume.py).

Python floats are modelled as rationals, Python 4-element coordinate lists
as `List ℚ`, the `saved_states` dict as an association list, and g-code
command parameters as `Option` values (`some none` standing for a field
that is present but fails `float()` parsing).
-/

namespace CT

/-- Snapshot stored by `cmd_SAVE_GCODE_STATE` (the `saved_states` dict value). -/
structure GSnapshot where
  absolute_coord : Bool
  absolute_extrude : Bool
  base_position : List ℚ
  last_position : List ℚ
  homing_position : List ℚ
  speed : ℚ
  speed_factor : ℚ
  extrude_factor : ℚ
deriving DecidableEq

/-- Coordinate state owned by `GCodeMove` (gcode_move.py). -/
structure GState where
  absolute_coord : Bool
  absolute_extrude : Bool
  base_position : List ℚ
  last_position : List ℚ
  homing_position : List ℚ
  speed : ℚ
  speed_factor : ℚ
  extrude_factor : ℚ
  laser_speed : ℚ
  saved_states : List (String × GSnapshot)
deriving DecidableEq

/-- Errors raised through `gcmd.error` in the modelled commands. -/
inductive Gerror where
  | unableToParse
  | invalidSpeed
  | invalidParam
  | unknownState
deriving DecidableEq

/-- Parameters of a G1/G0 command.  Outer `Option`: the field is present on
the command line; inner `Option`: `float()` parses it (`some none` = present
but malformed, so `float()` raises `ValueError`). -/
structure GParams where
  x : Option (Option ℚ)
  y : Option (Option ℚ)
  z : Option (Option ℚ)
  e : Option (Option ℚ)
  f : Option (Option ℚ)
  sParam : Option (Option ℚ)
deriving DecidableEq

/-- Sequencing of the steps inside `cmd_G1`'s `try` block: an error aborts
the remaining steps but keeps the state mutations already performed. -/
def gbind (r : GState × Option Gerror) (k : GState → GState × Option Gerror) :
    GState × Option Gerror :=
  match r with
  | (s, some e) => (s, some e)
  | (s, none) => k s

/-- One iteration of `for pos, axis in enumerate('XYZ')` in `cmd_G1`. -/
def g1Axis (pos : ℕ) (pv : Option (Option ℚ)) (s : GState) : GState × Option Gerror :=
  match pv with
  | none => (s, none)
  | some none => (s, some Gerror.unableToParse)
  | some (some v) =>
    if !s.absolute_coord then
      ({ s with last_position := s.last_position.set pos (s.last_position.getD pos 0 + v) },
       none)
    else
      ({ s with last_position := s.last_position.set pos (v + s.base_position.getD pos 0) },
       none)

/-- The `if 'E' in params` block of `cmd_G1`. -/
def g1Extrude (pv : Option (Option ℚ)) (s : GState) : GState × Option Gerror :=
  match pv with
  | none => (s, none)
  | some none => (s, some Gerror.unableToParse)
  | some (some v0) =>
    let v := v0 * s.extrude_factor
    if !s.absolute_coord || !s.absolute_extrude then
      ({ s with last_position := s.last_position.set 3 (s.last_position.getD 3 0 + v) },
       none)
    else
      ({ s with last_position := s.last_position.set 3 (v + s.base_position.getD 3 0) },
       none)

/-- The `if 'F' in params` block of `cmd_G1`. -/
def g1Feedrate (pv : Option (Option ℚ)) (s : GState) : GState × Option Gerror :=
  match pv with
  | none => (s, none)
  | some none => (s, some Gerror.unableToParse)
  | some (some gcode_speed) =>
    if gcode_speed ≤ 0 then (s, some Gerror.invalidSpeed)
    else ({ s with speed := gcode_speed * s.speed_factor }, none)

/-- The `if 'S' in params` block of `cmd_G1` (laser power; the `M3`/`M5`
scripts it runs are external side effects with no coordinate-state change). -/
def g1Laser (pv : Option (Option ℚ)) (s : GState) : GState × Option Gerror :=
  match pv with
  | none => (s, none)
  | some none => (s, some Gerror.unableToParse)
  | some (some gcode_speed) => ({ s with laser_speed := gcode_speed }, none)

/-- Model of `GCodeMove.cmd_G1`.  Returns the final state, the
`move_with_transform(last_position, speed)` call on success, and the raised
error otherwise (no move is issued when an error is raised). -/
def cmd_G1 (s : GState) (p : GParams) :
    GState × Option (List ℚ × ℚ) × Option Gerror :=
  match gbind (gbind (gbind (gbind (gbind (g1Axis 0 p.x s) (g1Axis 1 p.y))
      (g1Axis 2 p.z)) (g1Extrude p.e)) (g1Feedrate p.f)) (g1Laser p.sParam) with
  | (s1, some e) => (s1, none, some e)
  | (s1, none) => (s1, some (s1.last_position, s1.speed), none)

/-- One iteration of the offsets loop in `cmd_G92` (`offset *= extrude_factor`
for the extrude axis, then `base_position[i] = last_position[i] - offset`). -/
def g92Axis (i : ℕ) (off : Option ℚ) (s : GState) : GState :=
  match off with
  | none => s
  | some v0 =>
    let v := if i = 3 then v0 * s.extrude_factor else v0
    { s with base_position := s.base_position.set i (s.last_position.getD i 0 - v) }

/-- Model of `GCodeMove.cmd_G92`: set position.  After the per-axis loop, the all-absent
case resets `base_position = list(last_position)`. -/
def cmd_G92 (s : GState) (ox oy oz oe : Option ℚ) : GState :=
  let s1 := g92Axis 0 ox s
  let s2 := g92Axis 1 oy s1
  let s3 := g92Axis 2 oz s2
  let s4 := g92Axis 3 oe s3
  if ox = none ∧ oy = none ∧ oz = none ∧ oe = none then
    { s4 with base_position := s4.last_position }
  else s4

/-- Model of `gcmd.get_float(name, default, above=0.)`: returns the value (or the
default when absent) and raises when it is not strictly positive. -/
def getFloatAbove0 (p : Option ℚ) (dflt : ℚ) : Except Gerror ℚ :=
  let v := p.getD dflt
  if 0 < v then Except.ok v else Except.error Gerror.invalidParam

/-- Model of `GCodeMove.cmd_M221`: set extrude factor override percentage. -/
def cmd_M221 (s : GState) (sv : Option ℚ) : GState × Option Gerror :=
  match getFloatAbove0 sv 100 with
  | Except.error e => (s, some e)
  | Except.ok sval =>
    let new_extrude_factor := sval / 100
    let last_e_pos := s.last_position.getD 3 0
    let e_value := (last_e_pos - s.base_position.getD 3 0) / s.extrude_factor
    ({ s with
        base_position := s.base_position.set 3 (last_e_pos - e_value * new_extrude_factor),
        extrude_factor := new_extrude_factor },
     none)

/-- Python dict assignment `d[k] = v` on the `saved_states` dict. -/
def dictSet (d : List (String × GSnapshot)) (k : String) (v : GSnapshot) :
    List (String × GSnapshot) :=
  match d with
  | [] => [(k, v)]
  | (k1, v1) :: rest => if k1 = k then (k, v) :: rest else (k1, v1) :: dictSet rest k v

/-- Python `d.get(k)` on the `saved_states` dict. -/
def dictGet (d : List (String × GSnapshot)) (k : String) : Option GSnapshot :=
  match d with
  | [] => none
  | (k1, v1) :: rest => if k1 = k then some v1 else dictGet rest k

/-- Model of `GCodeMove.cmd_SAVE_GCODE_STATE`. -/
def cmd_SAVE_GCODE_STATE (s : GState) (state_name : String) : GState :=
  let snap : GSnapshot :=
    { absolute_coord := s.absolute_coord
      absolute_extrude := s.absolute_extrude
      base_position := s.base_position
      last_position := s.last_position
      homing_position := s.homing_position
      speed := s.speed
      speed_factor := s.speed_factor
      extrude_factor := s.extrude_factor }
  { s with saved_states := dictSet s.saved_states state_name snap }

/-- Model of `GCodeMove.cmd_RESTORE_GCODE_STATE`.  Here `move` models `MOVE=1`,
`move_speed` the optional `MOVE_SPEED` value (defaulting to the restored
`self.speed`).  Returns the new state, the `move_with_transform` call when
requested, and the raised error for an unknown state name. -/
def cmd_RESTORE_GCODE_STATE (s : GState) (state_name : String) (move : Bool)
    (move_speed : Option ℚ) : GState × Option (List ℚ × ℚ) × Option Gerror :=
  match dictGet s.saved_states state_name with
  | none => (s, none, some Gerror.unknownState)
  | some st =>
    let s1 := { s with
      absolute_coord := st.absolute_coord
      absolute_extrude := st.absolute_extrude
      base_position := st.base_position
      homing_position := st.homing_position
      speed := st.speed
      speed_factor := st.speed_factor
      extrude_factor := st.extrude_factor }
    let e_diff := s1.last_position.getD 3 0 - st.last_position.getD 3 0
    let s2 := { s1 with
      base_position := s1.base_position.set 3 (s1.base_position.getD 3 0 + e_diff) }
    if move then
      let speed := move_speed.getD s2.speed
      let s3 := { s2 with
        last_position := st.last_position.take 3 ++ s2.last_position.drop 3 }
      (s3, some (s3.last_position, speed), none)
    else
      (s2, none, none)

/-- Model of `GCodeMove._get_gcode_position()[3]`: the externally observed logical
extrude coordinate. -/
def logicalE (s : GState) : ℚ :=
  (s.last_position.getD 3 0 - s.base_position.getD 3 0) / s.extrude_factor

/-- Job progress fields of `VirtualSD` (virtual_sdcard.py). -/
structure VState where
  file_position : ℚ
  file_size : ℚ
deriving DecidableEq

/-- Model of `VirtualSD.progress`: guarded by the truthiness of `file_size`; the
`try`/`except` around the division returns `0.` on arithmetic failure. -/
def progress (s : VState) : ℚ :=
  if s.file_size ≠ 0 then s.file_position / s.file_size else 0

/-- The job-progress part of the `VirtualSD.get_status` dict. -/
structure VStatus where
  progress : ℚ
  file_position : ℚ
  file_size : ℚ
deriving DecidableEq

/-- Model of `VirtualSD.get_status` (job-progress fields). -/
def vsd_get_status (s : VState) : VStatus :=
  { progress := progress s
    file_position := s.file_position
    file_size := s.file_size }

/-- One line of the checkpoint save file, after `strip("'")`/`strip("\x5cn")`:
`short` = at most 10 characters (skipped by the `len(obj) > 10` guard),
`record` = a well-formed `{file_position, base_position_e}` dict,
`malformed` = longer than 10 characters but `eval(obj)` raises. -/
inductive CkLine where
  | short
  | record (file_position : ℚ) (base_position_e : ℚ)
  | malformed
deriving DecidableEq

/-- The checkpoint-reading loop shared by `GCodeMove.cmd_CX_RESTORE_GCODE_STATE`
and `VirtualSD.work_handler`: iterate over the lines keeping the record with
the strictly highest `file_position` (the first record wins ties); a line
that fails `eval` raises, aborting the whole read. -/
def ckReadLoop (info : Option (ℚ × ℚ)) : List CkLine → Except Unit (Option (ℚ × ℚ))
  | [] => Except.ok info
  | CkLine.short :: rest => ckReadLoop info rest
  | CkLine.malformed :: _ => Except.error ()
  | CkLine.record fp be :: rest =>
    match info with
    | none => ckReadLoop (some (fp, be)) rest
    | some i => if i.1 < fp then ckReadLoop (some (fp, be)) rest else ckReadLoop info rest

/-- Read the newest checkpoint record from the save file's lines. -/
def readCheckpoint (ls : List CkLine) : Except Unit (Option (ℚ × ℚ)) :=
  ckReadLoop none ls

/-- The well-formed records among the checkpoint file's lines, in order. -/
def ckRecords : List CkLine → List (ℚ × ℚ)
  | [] => []
  | CkLine.record fp be :: rest => (fp, be) :: ckRecords rest
  | _ :: rest => ckRecords rest

/-- Python `data.split('\x5cn')` on a block of characters: split at every
newline, keeping empty fragments (the result is never empty). -/
def splitNl : List Char → List (List Char)
  | [] => [[]]
  | c :: rest =>
    match splitNl rest with
    | [] => [[]]
    | h :: t => if c = '\n' then [] :: h :: t else (c :: h) :: t

/-- One block read of `VirtualSD.work_handler`:
`lines = data.split('\x5cn'); lines[0] = carry + lines[0];
carry = lines.pop()`; returns the lines dispatched from this block (in
dispatch order) and the trailing fragment carried into the next read. -/
def feed (carry block : List Char) : List (List Char) × List Char :=
  match splitNl block with
  | [] => ([], carry)
  | h :: t =>
    let ls := (carry ++ h) :: t
    (ls.dropLast, ls.getLastD [])

/-- The dispatch loop's line reconstruction over a sequence of block reads,
starting from carried fragment `carry`. -/
def runBlocks (carry : List Char) : List (List Char) → List (List Char)
  | [] => []
  | b :: bs => (feed carry b).1 ++ runBlocks (feed carry b).2 bs

/-- Dispatching the whole file content read as a single block. -/
def dispatchSingleBlock (content : List Char) : List (List Char) :=
  (feed [] content).1

/-- Exit condition of `VirtualSD.do_pause`'s polling loop:
`while self.work_timer is not None and not self.cmd_from_sd: reactor.pause(...)`
exits, given the values of the two flags observed at each poll. -/
def doPauseExits (work_timer_active cmd_from_sd : ℕ → Bool) : Prop :=
  ∃ n, ¬ (work_timer_active n = true ∧ cmd_from_sd n = false)

/-- The `must_pause_work` flag after `VirtualSD.do_pause` runs its guard
`if self.work_timer is not None: self.must_pause_work = True`. -/
def do_pause_must_pause (work_timer_active must_pause_work : Bool) : Bool :=
  if work_timer_active then true else must_pause_work

/-- The bounded wait loop at the top of `PauseResume.cmd_PAUSE`
(`count += 1; if not self.v_sd.toolhead_moved or count > 500: break`);
returns the final value of `count`, given the `toolhead_moved` values
observed at each iteration. -/
def pauseWaitCount (toolhead_moved : ℕ → Bool) (count : ℕ) : ℕ :=
  if h : toolhead_moved (count + 1) = false ∨ count + 1 > 500 then count + 1
  else pauseWaitCount toolhead_moved (count + 1)
termination_by 501 - count
decreasing_by
  push_neg at h
  omega

/-- Writing back the element a list already holds is the identity
(also when the index is out of range, where `List.set` is the identity). -/
theorem set_getD_self (l : List ℚ) (n : ℕ) : l.set n (l.getD n 0) = l := by
  induction l generalizing n with
  | nil => simp
  | cons a t ih =>
    cases n with
    | zero => simp
    | succ m =>
      have h := ih m
      simp [List.getD] at h ⊢
      exact h

/-- Looking up the key just written into the dict returns the written value. -/
theorem dictGet_dictSet (d : List (String × GSnapshot)) (k : String) (v : GSnapshot) :
    dictGet (dictSet d k v) k = some v := by
  induction d with
  | nil => simp [dictSet, dictGet]
  | cons h t ih =>
    obtain ⟨k1, v1⟩ := h
    by_cases hk : k1 = k
    · simp [dictSet, dictGet, hk]
    · simp [dictSet, dictGet, hk, ih]

/-- Lemma `set_getD_self` restated on the `getElem?` normal form that `simp` uses. -/
theorem set_getElemD_self (l : List ℚ) (n : ℕ) : l.set n (l[n]?.getD 0) = l := by
  simpa [List.getD] using set_getD_self l n

/-- Reading back an in-range index just written returns the written value. -/
theorem getD_set_self (l : List ℚ) (n : ℕ) (v : ℚ) (hn : n < l.length) :
    (l.set n v).getD n 0 = v := by
  induction l generalizing n with
  | nil => simp at hn
  | cons a t ih =>
    cases n with
    | zero => simp
    | succ m =>
      have hm : m < t.length := by simpa using hn
      simpa [List.getD] using by simpa [List.getD] using ih m hm

/-- C10: the job-progress query is total — `progress()` returns
`file_position / file_size` exactly when `file_size` is nonzero and `0.0`
when `file_size` is `0`, and `get_status` reports that guarded value, so the
status surface never performs an unguarded division by zero. -/
theorem progress_total (s : VState) :
    (vsd_get_status s).progress = progress s ∧
    ((s.file_size = 0 ∧ progress s = 0) ∨
     (s.file_size ≠ 0 ∧ progress s * s.file_size = s.file_position)) := by
  refine ⟨rfl, ?_⟩
  by_cases h : s.file_size = 0
  · exact Or.inl ⟨h, by simp [progress, h]⟩
  · exact Or.inr ⟨h, by simp [progress, h, div_mul_cancel₀]⟩

/-- C7: restoring a never-saved state name fails with the unknown-state
error, issues no move, and leaves every field of the coordinate state
(including `saved_states`) unchanged. -/
theorem restore_unknown_name (s : GState) (state_name : String)
    (h : dictGet s.saved_states state_name = none) (move : Bool)
    (move_speed : Option ℚ) :
    cmd_RESTORE_GCODE_STATE s state_name move move_speed =
      (s, none, some Gerror.unknownState) := by
  simp [cmd_RESTORE_GCODE_STATE, h]

/-- Witness for C7 at a concrete state with an empty `saved_states` dict. -/
theorem restore_unknown_name_witness :
    cmd_RESTORE_GCODE_STATE
      { absolute_coord := true, absolute_extrude := true
        base_position := [0, 0, 0, 0], last_position := [1, 2, 3, 4]
        homing_position := [0, 0, 0, 0], speed := 25, speed_factor := 1 / 60
        extrude_factor := 1, laser_speed := 0, saved_states := [] }
      "PAUSE_STATE" true none =
      ({ absolute_coord := true, absolute_extrude := true
         base_position := [0, 0, 0, 0], last_position := [1, 2, 3, 4]
         homing_position := [0, 0, 0, 0], speed := 25, speed_factor := 1 / 60
         extrude_factor := 1, laser_speed := 0, saved_states := [] },
       none, some Gerror.unknownState) :=
  restore_unknown_name _ "PAUSE_STATE" (by simp [dictGet]) true none

/-- C2: for every state and extrude override value above zero, `cmd_M221`
succeeds and leaves the externally observed logical extrude coordinate
`(last_position[3] - base_position[3]) / extrude_factor` unchanged at the
instant of the change. -/
theorem m221_preserves_logical_extrude (s : GState) (sv : Option ℚ)
    (hef : s.extrude_factor ≠ 0) (hsv : 0 < sv.getD 100)
    (hlen : 3 < s.base_position.length) :
    (cmd_M221 s sv).2 = none ∧ logicalE (cmd_M221 s sv).1 = logicalE s := by
  have hnf : sv.getD 100 / 100 ≠ 0 := by positivity
  constructor
  · simp [cmd_M221, getFloatAbove0, hsv]
  · simp only [cmd_M221, getFloatAbove0, hsv, if_pos]
    simp only [logicalE, getD_set_self _ _ _ hlen]
    rw [sub_sub_cancel, mul_div_cancel_right₀ _ hnf]

/-- A concrete coordinate state used by witnesses. -/
def s0 : GState :=
  { absolute_coord := true
    absolute_extrude := true
    base_position := [0, 0, 0, 1]
    last_position := [10, 20, 30, 7]
    homing_position := [0, 0, 0, 0]
    speed := 25
    speed_factor := 1 / 60
    extrude_factor := 2
    laser_speed := 0
    saved_states := [] }

/-- Witness for C2 at a concrete state and a 50 percent override. -/
theorem m221_preserves_logical_extrude_witness :
    s0.extrude_factor ≠ 0 ∧ (0 : ℚ) < (some (50 : ℚ)).getD 100 ∧
    3 < s0.base_position.length ∧
    ((cmd_M221 s0 (some 50)).2 = none ∧
      logicalE (cmd_M221 s0 (some 50)).1 = logicalE s0) :=
  ⟨by norm_num [s0], by norm_num, by norm_num [s0],
   m221_preserves_logical_extrude s0 (some 50) (by norm_num [s0]) (by norm_num)
     (by norm_num [s0])⟩

/-- C3: saving a state and immediately restoring it with no intervening
mutation and no motion reapply requested issues no move, reports no error,
and leaves every observable coordinate-state field unchanged (the extrude
base correction `last_position[3] - snapshot.last_position[3]` is zero). -/
theorem save_restore_noop (s : GState) (state_name : String) :
    (cmd_RESTORE_GCODE_STATE (cmd_SAVE_GCODE_STATE s state_name)
        state_name false none).2.1 = none ∧
    (cmd_RESTORE_GCODE_STATE (cmd_SAVE_GCODE_STATE s state_name)
        state_name false none).2.2 = none ∧
    (cmd_RESTORE_GCODE_STATE (cmd_SAVE_GCODE_STATE s state_name)
        state_name false none).1.absolute_coord = s.absolute_coord ∧
    (cmd_RESTORE_GCODE_STATE (cmd_SAVE_GCODE_STATE s state_name)
        state_name false none).1.absolute_extrude = s.absolute_extrude ∧
    (cmd_RESTORE_GCODE_STATE (cmd_SAVE_GCODE_STATE s state_name)
        state_name false none).1.base_position = s.base_position ∧
    (cmd_RESTORE_GCODE_STATE (cmd_SAVE_GCODE_STATE s state_name)
        state_name false none).1.last_position = s.last_position ∧
    (cmd_RESTORE_GCODE_STATE (cmd_SAVE_GCODE_STATE s state_name)
        state_name false none).1.homing_position = s.homing_position ∧
    (cmd_RESTORE_GCODE_STATE (cmd_SAVE_GCODE_STATE s state_name)
        state_name false none).1.speed = s.speed ∧
    (cmd_RESTORE_GCODE_STATE (cmd_SAVE_GCODE_STATE s state_name)
        state_name false none).1.speed_factor = s.speed_factor ∧
    (cmd_RESTORE_GCODE_STATE (cmd_SAVE_GCODE_STATE s state_name)
        state_name false none).1.extrude_factor = s.extrude_factor := by
  simp [cmd_SAVE_GCODE_STATE, cmd_RESTORE_GCODE_STATE, dictGet_dictSet,
    set_getD_self, set_getElemD_self]

/-- Model of `GCodeMove._get_gcode_position`: the logical position reported to the
instruction stream (`last - base`, extrude component divided by
`extrude_factor`). -/
def gcode_position (s : GState) : List ℚ :=
  let p := List.zipWith (fun lp bp => lp - bp) s.last_position s.base_position
  p.set 3 (p.getD 3 0 / s.extrude_factor)

/-- A list of length 4 is an explicit 4-element list. -/
theorem exists_len4 (l : List ℚ) (h : l.length = 4) :
    ∃ a b c d, l = [a, b, c, d] := by
  rcases l with _ | ⟨a, l⟩
  · simp at h
  rcases l with _ | ⟨b, l⟩
  · simp at h
  rcases l with _ | ⟨c, l⟩
  · simp at h
  rcases l with _ | ⟨d, l⟩
  · simp at h
  rcases l with _ | ⟨e1, l⟩
  · exact ⟨a, b, c, d, rfl⟩
  · simp at h

/-- C6 counterexample: invoking `cmd_G92` with all four axis parameters
absent is NOT equivalent to invoking it with every axis parameter equal to
the current logical position of that axis — at the concrete state `s0` the
all-absent call re-zeroes the origin while the logical-position call is a
no-op. -/
theorem g92_all_absent_cex :
    cmd_G92 s0 none none none none ≠
      cmd_G92 s0 (some ((gcode_position s0).getD 0 0))
        (some ((gcode_position s0).getD 1 0))
        (some ((gcode_position s0).getD 2 0))
        (some ((gcode_position s0).getD 3 0)) := by
  have hg0 : (gcode_position s0).getD 0 0 = 10 := by
    norm_num [gcode_position, s0, List.getD]
  have hg1 : (gcode_position s0).getD 1 0 = 20 := by
    norm_num [gcode_position, s0, List.getD]
  have hg2 : (gcode_position s0).getD 2 0 = 30 := by
    norm_num [gcode_position, s0, List.getD]
  have hg3 : (gcode_position s0).getD 3 0 = 3 := by
    norm_num [gcode_position, s0, List.getD]
  rw [hg0, hg1, hg2, hg3]
  intro heq
  have h := congrArg GState.base_position heq
  norm_num [cmd_G92, g92Axis, s0, List.getD] at h
  rw [if_neg (by simp)] at h
  norm_num at h

/-- C6 (amended): invoking `cmd_G92` with all four axis parameters absent
resets `base_position` to `last_position` (a full re-zero, not a no-op), and
on 4-element coordinate lists this is equivalent to invoking it with every
axis parameter equal to zero. -/
theorem g92_all_absent_rezero (s : GState)
    (hb : s.base_position.length = 4) (hl : s.last_position.length = 4) :
    (cmd_G92 s none none none none).base_position = s.last_position ∧
    cmd_G92 s none none none none =
      cmd_G92 s (some 0) (some 0) (some 0) (some 0) := by
  obtain ⟨b0, b1, b2, b3, hbl⟩ := exists_len4 _ hb
  obtain ⟨l0, l1, l2, l3, hll⟩ := exists_len4 _ hl
  constructor
  · simp [cmd_G92, g92Axis]
  · simp [cmd_G92, g92Axis, hbl, hll, List.getD]

/-- Witness for the amended C6 at the concrete state `s0`. -/
theorem g92_all_absent_rezero_witness :
    (cmd_G92 s0 none none none none).base_position = s0.last_position ∧
    cmd_G92 s0 none none none none =
      cmd_G92 s0 (some 0) (some 0) (some 0) (some 0) :=
  g92_all_absent_rezero s0 (by decide) (by decide)

/-- C8 counterexample: `VirtualSD.do_pause`'s wait for the work loop to exit
is not bounded — when the work timer stays active and `cmd_from_sd` stays
false at every poll, the polling loop never exits, so `pause()` does not
always terminate. -/
theorem do_pause_unbounded_cex :
    ¬ doPauseExits (fun _ => true) (fun _ => false) := by
  intro h
  obtain ⟨n, hn⟩ := h
  exact hn ⟨rfl, rfl⟩

/-- The `cmd_PAUSE` pre-wait loop exits with `count` at most 501. -/
theorem pauseWaitCount_le (m : ℕ → Bool) (count : ℕ) :
    pauseWaitCount m count ≤ max (count + 1) 501 := by
  have key : ∀ k count, 501 - count ≤ k →
      pauseWaitCount m count ≤ max (count + 1) 501 := by
    intro k
    induction k with
    | zero =>
      intro count hc
      rw [pauseWaitCount]
      have h5 : count + 1 > 500 := by omega
      rw [dif_pos (Or.inr h5)]
      exact le_max_left _ _
    | succ n ih =>
      intro count hc
      rw [pauseWaitCount]
      split
      · exact le_max_left _ _
      · rename_i h
        push_neg at h
        have h1 := ih (count + 1) (by omega)
        have h2 : max (count + 1 + 1) 501 = 501 := by omega
        have h3 : (501 : ℕ) ≤ max (count + 1) 501 := le_max_right _ _
        omega
  exact key 501 count (by omega)

/-- C8 (amended): `do_pause` on an active job sets `must_pause_work`; the
pre-wait in `cmd_PAUSE` on `toolhead_moved` is bounded (at most 501
iterations), but `do_pause`'s wait for the work loop to exit has no timeout
or retry bound: whenever the work timer stays active and `cmd_from_sd` stays
false at every poll, the wait never finishes. -/
theorem pause_wait_bounds :
    (∀ m : Bool, do_pause_must_pause true m = true) ∧
    (∀ m : ℕ → Bool, pauseWaitCount m 0 ≤ 501) ∧
    (∀ w c : ℕ → Bool, (∀ n, w n = true ∧ c n = false) → ¬ doPauseExits w c) := by
  refine ⟨fun m => rfl, fun m => ?_, fun w c hall hex => ?_⟩
  · simpa using pauseWaitCount_le m 0
  · obtain ⟨n, hn⟩ := hex
    exact hn (hall n)

/-- Witness for the amended C8 at concrete flag traces. -/
theorem pause_wait_bounds_witness :
    do_pause_must_pause true false = true ∧
    pauseWaitCount (fun _ => true) 0 ≤ 501 ∧
    ¬ doPauseExits (fun _ => true) (fun _ => false) :=
  ⟨pause_wait_bounds.1 false, pause_wait_bounds.2.1 (fun _ => true),
   pause_wait_bounds.2.2 (fun _ => true) (fun _ => false) (fun _ => ⟨rfl, rfl⟩)⟩

/-- Running the reading loop with a current best record over malformed-free
lines yields a record at least as high as the current best and as every
well-formed record seen. -/
theorem ckReadLoop_some (ls : List CkLine) (hbad : CkLine.malformed ∉ ls) :
    ∀ i : ℚ × ℚ, ∃ r : ℚ × ℚ, ckReadLoop (some i) ls = Except.ok (some r) ∧
      (r = i ∨ r ∈ ckRecords ls) ∧ i.1 ≤ r.1 ∧ ∀ r' ∈ ckRecords ls, r'.1 ≤ r.1 := by
  induction ls with
  | nil => exact fun i => ⟨i, rfl, Or.inl rfl, le_refl _, by simp [ckRecords]⟩
  | cons l rest ih =>
    intro i
    have hbad' : CkLine.malformed ∉ rest := fun hm => hbad (List.mem_cons_of_mem _ hm)
    cases l with
    | short =>
      obtain ⟨r, h1, h2, h3, h4⟩ := ih hbad' i
      exact ⟨r, h1, h2, h3, by simpa [ckRecords] using h4⟩
    | malformed => exact absurd (List.mem_cons_self _ _) hbad
    | record fp be =>
      by_cases hlt : i.1 < fp
      · obtain ⟨r, h1, h2, h3, h4⟩ := ih hbad' (fp, be)
        refine ⟨r, ?_, ?_, ?_, ?_⟩
        · simpa [ckReadLoop, hlt] using h1
        · rcases h2 with h2 | h2
          · exact Or.inr (by simp [ckRecords, h2])
          · exact Or.inr (by simp [ckRecords, h2])
        · exact le_of_lt (lt_of_lt_of_le hlt h3)
        · intro r' hr'
          simp [ckRecords] at hr'
          rcases hr' with hr' | hr'
          · subst hr'
            exact h3
          · exact h4 r' hr'
      · obtain ⟨r, h1, h2, h3, h4⟩ := ih hbad' i
        refine ⟨r, ?_, ?_, h3, ?_⟩
        · simpa [ckReadLoop, hlt] using h1
        · rcases h2 with h2 | h2
          · exact Or.inl h2
          · exact Or.inr (by simp [ckRecords, h2])
        · intro r' hr'
          simp [ckRecords] at hr'
          rcases hr' with hr' | hr'
          · subst hr'
            exact le_trans (not_lt.mp hlt) h3
          · exact h4 r' hr'

/-- When no line is malformed, the reader succeeds and returns the
well-formed record with the highest `file_position` (or nothing when there
is no record at all). -/
theorem readCheckpoint_no_malformed (ls : List CkLine)
    (hbad : CkLine.malformed ∉ ls) :
    (ckRecords ls = [] ∧ readCheckpoint ls = Except.ok none) ∨
    (∃ r, readCheckpoint ls = Except.ok (some r) ∧ r ∈ ckRecords ls ∧
      ∀ r' ∈ ckRecords ls, r'.1 ≤ r.1) := by
  induction ls with
  | nil => exact Or.inl ⟨rfl, rfl⟩
  | cons l rest ih =>
    have hbad' : CkLine.malformed ∉ rest := fun hm => hbad (List.mem_cons_of_mem _ hm)
    cases l with
    | short =>
      rcases ih hbad' with ⟨h1, h2⟩ | ⟨r, h1, h2, h3⟩
      · exact Or.inl ⟨by simpa [ckRecords] using h1, h2⟩
      · exact Or.inr ⟨r, h1, by simpa [ckRecords] using h2,
          by simpa [ckRecords] using h3⟩
    | malformed => exact absurd (List.mem_cons_self _ _) hbad
    | record fp be =>
      obtain ⟨r, h1, h2, h3, h4⟩ := ckReadLoop_some rest hbad' (fp, be)
      refine Or.inr ⟨r, h1, ?_, ?_⟩
      · rcases h2 with h2 | h2
        · simp [ckRecords, h2]
        · simp [ckRecords, h2]
      · intro r' hr'
        simp [ckRecords] at hr'
        rcases hr' with hr' | hr'
        · subst hr'
          exact h3
        · exact h4 r' hr'

/-- Any malformed line aborts the whole read, whatever the loop state. -/
theorem ckReadLoop_malformed (ls : List CkLine) (h : CkLine.malformed ∈ ls) :
    ∀ info, ckReadLoop info ls = Except.error () := by
  induction ls with
  | nil => simp at h
  | cons l rest ih =>
    intro info
    cases l with
    | short =>
      have h' : CkLine.malformed ∈ rest := by simpa using h
      exact ih h' info
    | malformed => rfl
    | record fp be =>
      have h' : CkLine.malformed ∈ rest := by simpa using h
      cases info with
      | none => exact ih h' _
      | some i =>
        by_cases hlt : i.1 < fp <;> simp [ckReadLoop, hlt, ih h']

/-- C4 counterexample: with one well-formed record followed by one malformed
(truncated) line, the reader does not return the well-formed record with the
highest `file_position` — the `eval` failure aborts the whole read and no
record is returned. -/
theorem checkpoint_reader_cex :
    readCheckpoint [CkLine.record 5 0, CkLine.malformed] = Except.error () ∧
    readCheckpoint [CkLine.record 5 0, CkLine.malformed] ≠
      Except.ok (some (5, 0)) := by
  refine ⟨rfl, ?_⟩
  intro h
  simp [readCheckpoint, ckReadLoop] at h

/-- C4 (amended): when every line longer than the length guard is a
well-formed record, the reader returns the record with the highest
`file_position` among all well-formed lines (never a partial one); but if
any malformed line is present, the read aborts with an error and returns no
record at all. -/
theorem checkpoint_reader_amended (ls : List CkLine) :
    (CkLine.malformed ∉ ls →
      (ckRecords ls = [] ∧ readCheckpoint ls = Except.ok none) ∨
      (∃ r, readCheckpoint ls = Except.ok (some r) ∧ r ∈ ckRecords ls ∧
        ∀ r' ∈ ckRecords ls, r'.1 ≤ r.1)) ∧
    (CkLine.malformed ∈ ls → readCheckpoint ls = Except.error ()) :=
  ⟨fun hbad => readCheckpoint_no_malformed ls hbad,
   fun h => ckReadLoop_malformed ls h none⟩

/-- Witness for the amended C4 at two concrete line lists. -/
theorem checkpoint_reader_amended_witness :
    ((ckRecords [CkLine.short, CkLine.record 3 1, CkLine.record 7 2] = [] ∧
        readCheckpoint [CkLine.short, CkLine.record 3 1, CkLine.record 7 2] =
          Except.ok none) ∨
      (∃ r, readCheckpoint [CkLine.short, CkLine.record 3 1, CkLine.record 7 2] =
          Except.ok (some r) ∧
        r ∈ ckRecords [CkLine.short, CkLine.record 3 1, CkLine.record 7 2] ∧
        ∀ r' ∈ ckRecords [CkLine.short, CkLine.record 3 1, CkLine.record 7 2],
          r'.1 ≤ r.1)) ∧
    readCheckpoint [CkLine.record 3 1, CkLine.malformed] = Except.error () :=
  ⟨(checkpoint_reader_amended _).1 (by simp),
   (checkpoint_reader_amended _).2 (by simp)⟩

/-- The function `splitNl` never returns an empty list of fragments. -/
theorem splitNl_ne_nil (s : List Char) : splitNl s ≠ [] := by
  cases s with
  | nil => simp [splitNl]
  | cons c rest =>
    rw [splitNl]
    cases h : splitNl rest with
    | nil => simp
    | cons a t => by_cases hc : c = '\n' <;> simp [hc]

/-- The default-carrying last element of a list is the default or a member. -/
theorem getLastD_mem (t : List (List Char)) (a : List Char) :
    t.getLastD a ∈ a :: t := by
  induction t generalizing a with
  | nil => simp [List.getLastD]
  | cons b u ih =>
    rw [List.getLastD_cons]
    exact List.mem_cons_of_mem a (ih b)

/-- Every fragment produced by `splitNl` is free of newline characters. -/
theorem mem_splitNl_no_newline (s : List Char) :
    ∀ p ∈ splitNl s, '\n' ∉ p := by
  induction s with
  | nil =>
    intro p hp
    simp [splitNl] at hp
    simp [hp]
  | cons c rest ih =>
    intro p hp
    rw [splitNl] at hp
    cases h : splitNl rest with
    | nil => exact absurd h (splitNl_ne_nil rest)
    | cons a t =>
      rw [h] at hp
      by_cases hc : c = '\n'
      · simp [hc] at hp
        rcases hp with hp | hp
        · simp [hp]
        · exact ih p (h ▸ List.mem_cons.mpr hp)
      · simp [hc] at hp
        rcases hp with hp | hp
        · subst hp
          intro hmem
          rcases List.mem_cons.mp hmem with hmem | hmem
          · exact hc hmem.symm
          · exact ih a (h ▸ List.mem_cons_self a t) hmem
        · exact ih p (h ▸ List.mem_cons_of_mem a hp)

/-- The trailing fragment of `splitNl` is free of newline characters. -/
theorem getLastD_splitNl_no_newline (s : List Char) :
    '\n' ∉ (splitNl s).getLastD [] := by
  cases h : splitNl s with
  | nil => exact absurd h (splitNl_ne_nil s)
  | cons a t =>
    rw [List.getLastD_cons]
    have hmem : t.getLastD a ∈ a :: t := getLastD_mem t a
    exact mem_splitNl_no_newline s _ (h ▸ hmem)

/-- Splitting a newline-free block yields just that block. -/
theorem splitNl_no_newline (s : List Char) (h : '\n' ∉ s) : splitNl s = [s] := by
  induction s with
  | nil => rfl
  | cons c rest ih =>
    have hc : c ≠ '\n' := fun e => h (e ▸ List.mem_cons_self c rest)
    have h' : '\n' ∉ rest := fun e => h (List.mem_cons_of_mem c e)
    rw [splitNl, ih h']
    simp [hc]

/-- How `splitNl` decomposes over an append: the fragments of `x` except the
last, then the last fragment of `x` glued onto the first fragment of `s`,
then the remaining fragments of `s`. -/
theorem splitNl_append (x s a : List Char) (t : List (List Char))
    (hs : splitNl s = a :: t) :
    splitNl (x ++ s) =
      (splitNl x).dropLast ++ ((splitNl x).getLastD [] ++ a) :: t := by
  induction x with
  | nil => simpa [splitNl, List.getLastD] using hs
  | cons c cs ih =>
    cases hcs : splitNl cs with
    | nil => exact absurd hcs (splitNl_ne_nil cs)
    | cons b u =>
      rw [hcs] at ih
      rw [List.cons_append, splitNl, ih, splitNl, hcs]
      cases u with
      | nil =>
        by_cases hc : c = '\n' <;>
          simp [hc, List.getLastD_cons, List.getLastD]
      | cons w ws =>
        by_cases hc : c = '\n' <;>
          simp [hc, List.getLastD_cons, List.getLastD]

/-- Dispatching a single block with no carried fragment dispatches every
fragment except the trailing one. -/
theorem feed_nil_carry (c : List Char) :
    (feed [] c).1 = (splitNl c).dropLast := by
  rw [feed]
  cases hh : splitNl c with
  | nil => exact absurd hh (splitNl_ne_nil c)
  | cons a t => simp

/-- The dispatch loop over any sequence of blocks dispatches exactly the
non-trailing fragments of the concatenated content (given a newline-free
carried fragment, as the loop maintains). -/
theorem runBlocks_eq (bs : List (List Char)) :
    ∀ carry : List Char, '\n' ∉ carry →
      runBlocks carry bs = (splitNl (carry ++ bs.flatten)).dropLast := by
  induction bs with
  | nil =>
    intro carry hc
    simp [runBlocks, splitNl_no_newline carry hc]
  | cons b bs ih =>
    intro carry hc
    obtain ⟨a, t, hb⟩ : ∃ a t, splitNl b = a :: t := by
      cases hb : splitNl b with
      | nil => exact absurd hb (splitNl_ne_nil b)
      | cons a t => exact ⟨a, t, rfl⟩
    have hcb : splitNl (carry ++ b) = (carry ++ a) :: t := by
      rw [splitNl_append carry b a t hb, splitNl_no_newline carry hc]
      simp [List.getLastD]
    have hfeed : feed carry b = (((carry ++ a) :: t).dropLast,
        ((carry ++ a) :: t).getLastD []) := by
      rw [feed, hb]
    have hnewc : '\n' ∉ ((carry ++ a) :: t).getLastD [] := by
      have h2 := getLastD_splitNl_no_newline (carry ++ b)
      rwa [hcb] at h2
    obtain ⟨a2, t2, hj⟩ : ∃ a2 t2, splitNl bs.flatten = a2 :: t2 := by
      cases hj : splitNl bs.flatten with
      | nil => exact absurd hj (splitNl_ne_nil bs.flatten)
      | cons a2 t2 => exact ⟨a2, t2, rfl⟩
    have hbig : splitNl (carry ++ (b :: bs).flatten) =
        ((carry ++ a) :: t).dropLast ++
          (((carry ++ a) :: t).getLastD [] ++ a2) :: t2 := by
      rw [List.flatten_cons, ← List.append_assoc]
      rw [splitNl_append (carry ++ b) bs.flatten a2 t2 hj, hcb]
    have hnext : splitNl (((carry ++ a) :: t).getLastD [] ++ bs.flatten) =
        (((carry ++ a) :: t).getLastD [] ++ a2) :: t2 := by
      rw [splitNl_append _ bs.flatten a2 t2 hj, splitNl_no_newline _ hnewc]
      simp [List.getLastD]
    rw [runBlocks, hfeed, ih _ hnewc, hbig, hnext]
    simp [List.dropLast_append_cons]

/-- C5: splitting the file content across arbitrary block-read boundaries
and reconstructing lines with the carried trailing fragment dispatches
exactly the same line sequence as reading the whole content as one block —
no line is lost, duplicated, or split across block boundaries. -/
theorem dispatch_blocks_eq_single (blocks : List (List Char)) :
    runBlocks [] blocks = dispatchSingleBlock blocks.flatten := by
  rw [dispatchSingleBlock, feed_nil_carry, runBlocks_eq blocks [] (by simp)]
  simp

/-- Lemma `getD_set_self` restated on the `getElem?` normal form that `simp` uses. -/
theorem getElemD_set_self (l : List ℚ) (n : ℕ) (v : ℚ) (hn : n < l.length) :
    (l.set n v)[n]?.getD 0 = v := by
  simpa [List.getD] using getD_set_self l n v hn

/-- Concrete state for the C1 counterexample: relative positional mode with
absolute extrude mode. -/
def sE : GState :=
  { absolute_coord := false
    absolute_extrude := true
    base_position := [0, 0, 0, 5]
    last_position := [0, 0, 0, 0]
    homing_position := [0, 0, 0, 0]
    speed := 25
    speed_factor := 1 / 60
    extrude_factor := 1
    laser_speed := 0
    saved_states := [] }

/-- G1 parameters carrying only `E1` for the C1 counterexample. -/
def pE : GParams := ⟨none, none, none, some (some 1), none, none⟩

/-- C1 counterexample: with `absolute_coord = false` and
`absolute_extrude = true`, a G1 `E` value is applied RELATIVELY by the code,
not with the absolute rule `value * extrude_factor + base_position[3]` that
the logical extrude mode `absolute_extrude` alone would select. -/
theorem g1_extrude_mode_cex :
    (cmd_G1 sE pE).1.last_position.getD 3 0 = 1 ∧
    (1 : ℚ) * sE.extrude_factor + sE.base_position.getD 3 0 = 6 ∧
    (cmd_G1 sE pE).1.last_position.getD 3 0 ≠
      1 * sE.extrude_factor + sE.base_position.getD 3 0 := by
  refine ⟨?_, ?_, ?_⟩ <;>
    norm_num [cmd_G1, gbind, g1Axis, g1Extrude, g1Feedrate, g1Laser, sE, pE,
      List.getD]

set_option maxHeartbeats 1600000 in
/-- C1 (amended): on success, each present well-formed X/Y/Z value is added
to `last_position` in relative mode and set to `value + base_position[axis]`
in absolute mode; a present E value is scaled by `extrude_factor` and then
applied with the absolute rule only when BOTH the positional mode and the
extrude mode are absolute (relatively otherwise); a present F value above
zero rescales the speed; and `(last_position, speed)` is forwarded to the
motion engine. -/
theorem g1_success_rule (s : GState) (a0 a1 a2 a3 : ℚ)
    (hl : s.last_position = [a0, a1, a2, a3])
    (vx vy vz ve vf : Option ℚ) (hf : ∀ v ∈ vf, 0 < v) (p : GParams)
    (hp : p = ⟨Option.map some vx, Option.map some vy, Option.map some vz,
        Option.map some ve, Option.map some vf, none⟩) :
    (cmd_G1 s p).2.2 = none ∧
    (cmd_G1 s p).1.last_position =
      [(match vx with
        | none => a0
        | some v =>
          if s.absolute_coord = true then v + s.base_position.getD 0 0
          else a0 + v),
       (match vy with
        | none => a1
        | some v =>
          if s.absolute_coord = true then v + s.base_position.getD 1 0
          else a1 + v),
       (match vz with
        | none => a2
        | some v =>
          if s.absolute_coord = true then v + s.base_position.getD 2 0
          else a2 + v),
       (match ve with
        | none => a3
        | some v0 =>
          if s.absolute_coord = true ∧ s.absolute_extrude = true then
            v0 * s.extrude_factor + s.base_position.getD 3 0
          else a3 + v0 * s.extrude_factor)] ∧
    (cmd_G1 s p).1.speed =
      (match vf with
       | none => s.speed
       | some v => v * s.speed_factor) ∧
    (cmd_G1 s p).2.1 = some ((cmd_G1 s p).1.last_position, (cmd_G1 s p).1.speed) := by
  subst hp
  rcases vf with _ | fv
  · rcases vx with _ | xv <;> rcases vy with _ | yv <;> rcases vz with _ | zv <;>
      rcases ve with _ | ev <;>
      cases hca : s.absolute_coord <;> cases hae : s.absolute_extrude <;>
      simp [cmd_G1, gbind, g1Axis, g1Extrude, g1Feedrate, g1Laser, hl, hca, hae,
        List.getD]
  · have hfv : ¬ (fv ≤ 0) := not_le.mpr (hf fv (by simp))
    rcases vx with _ | xv <;> rcases vy with _ | yv <;> rcases vz with _ | zv <;>
      rcases ve with _ | ev <;>
      cases hca : s.absolute_coord <;> cases hae : s.absolute_extrude <;>
      simp [cmd_G1, gbind, g1Axis, g1Extrude, g1Feedrate, g1Laser, hl, hca, hae,
        hfv, List.getD]

/-- Witness for the amended C1 at the concrete state `s0` with
`X1 E2 F60`. -/
theorem g1_success_rule_witness :
    (cmd_G1 s0 ⟨some (some 1), none, none, some (some 2), some (some 60),
        none⟩).2.2 = none ∧
    (cmd_G1 s0 ⟨some (some 1), none, none, some (some 2), some (some 60),
        none⟩).1.last_position = [1, 20, 30, 5] ∧
    (cmd_G1 s0 ⟨some (some 1), none, none, some (some 2), some (some 60),
        none⟩).1.speed = 1 ∧
    (cmd_G1 s0 ⟨some (some 1), none, none, some (some 2), some (some 60),
        none⟩).2.1 = some ([1, 20, 30, 5], 1) := by
  have h := g1_success_rule s0 10 20 30 7 rfl (some 1) none none (some 2)
    (some 60) (by intro v hv; simp at hv; subst hv; norm_num) _ rfl
  norm_num [s0, List.getD] at h
  obtain ⟨h1, h2, h3, h4⟩ := h
  exact ⟨by simp only [s0]; exact h1, by simp only [s0]; exact h2,
    by simp only [s0]; exact h3, by simp only [s0]; rw [h4, h2, h3]⟩

/-- C9: a G1 command that fails to parse is not atomic on the coordinate
state — the X entry of `last_position` keeps the value written before the
malformed `Y` field (or before the invalid `F0` field) was reached — yet the
motion engine is never asked to move within a failing invocation:
`move_with_transform` is only reached on full success. -/
theorem g1_error_not_atomic :
    (∀ (s : GState) (p : GParams), (cmd_G1 s p).2.2.isSome →
      (cmd_G1 s p).2.1 = none) ∧
    (∀ (s : GState) (v : ℚ), 0 < s.last_position.length →
      (cmd_G1 s ⟨some (some v), some none, none, none, none, none⟩).2.2 =
        some Gerror.unableToParse ∧
      (cmd_G1 s ⟨some (some v), some none, none, none, none, none⟩).2.1 = none ∧
      (cmd_G1 s
          ⟨some (some v), some none, none, none, none, none⟩).1.last_position.getD 0 0 =
        (if s.absolute_coord = true then v + s.base_position.getD 0 0
         else s.last_position.getD 0 0 + v)) ∧
    (∀ (s : GState) (v : ℚ), 0 < s.last_position.length →
      (cmd_G1 s ⟨some (some v), none, none, none, some (some 0), none⟩).2.2 =
        some Gerror.invalidSpeed ∧
      (cmd_G1 s ⟨some (some v), none, none, none, some (some 0), none⟩).2.1 = none ∧
      (cmd_G1 s
          ⟨some (some v), none, none, none, some (some 0), none⟩).1.last_position.getD 0 0 =
        (if s.absolute_coord = true then v + s.base_position.getD 0 0
         else s.last_position.getD 0 0 + v)) := by
  refine ⟨?_, ?_, ?_⟩
  · intro s p h
    rcases hR : gbind (gbind (gbind (gbind (gbind (g1Axis 0 p.x s) (g1Axis 1 p.y))
        (g1Axis 2 p.z)) (g1Extrude p.e)) (g1Feedrate p.f)) (g1Laser p.sParam) with
      ⟨s1, _ | e⟩
    · simp [cmd_G1, hR] at h
    · simp [cmd_G1, hR]
  · intro s v hlen
    cases hca : s.absolute_coord <;>
      simp [cmd_G1, gbind, g1Axis, g1Extrude, g1Feedrate, g1Laser, hca, hlen,
        getD_set_self, getElemD_set_self, List.getD]
  · intro s v hlen
    cases hca : s.absolute_coord <;>
      simp [cmd_G1, gbind, g1Axis, g1Extrude, g1Feedrate, g1Laser, hca, hlen,
        getD_set_self, getElemD_set_self, List.getD]

/-- Witness for C9 at the concrete state `s0`. -/
theorem g1_error_not_atomic_witness :
    (cmd_G1 s0 ⟨some none, none, none, none, none, none⟩).2.1 = none ∧
    (cmd_G1 s0 ⟨some (some 1), some none, none, none, none, none⟩).2.2 =
      some Gerror.unableToParse ∧
    (cmd_G1 s0
        ⟨some (some 1), some none, none, none, none, none⟩).1.last_position.getD 0 0 = 1 ∧
    (cmd_G1 s0 ⟨some (some 1), none, none, none, some (some 0), none⟩).2.2 =
      some Gerror.invalidSpeed := by
  refine ⟨g1_error_not_atomic.1 s0 _ ?_, ?_, ?_, ?_⟩
  · norm_num [cmd_G1, gbind, g1Axis, g1Extrude, g1Feedrate, g1Laser, s0]
  · exact (g1_error_not_atomic.2.1 s0 1 (by norm_num [s0])).1
  · have h := (g1_error_not_atomic.2.1 s0 1 (by norm_num [s0])).2.2
    norm_num [s0, List.getD] at h
    exact h
  · exact (g1_error_not_atomic.2.2 s0 1 (by norm_num [s0])).1

end CT
